import Mathlib

/-!
Shallow embedding of the Wisper repository's correction-learning pipeline,
confidence-weighted pattern store, category-classification fallback chain and
brute-force embedding retrieval (src/AI_integreted_whisper.py, with the
retrieval code shared by src/voice_rag_poc.py).

Python machine floats are modelled as rationals, Python dicts (which preserve
insertion order) as association lists in insertion order, Python's `None` as
`Option.none`, and the two persisted JSON files as explicit on-file JSON
values carried in the state.  External services (the Whisper recogniser, the
Claude HTTP endpoint, the sentence-embedding model) are modelled by their
observable outputs, exactly as the surrounding code consumes them.
-/

/-! ### Python string primitives

The source manipulates Python `str` values with `split()`, `strip()`,
`lower()`, `count()`, `replace()` and the `in` substring test.  Each is
re-implemented here on `List Char` / `String` with the same semantics
(code-point based lengths, whitespace as in `Char.isWhitespace`).  Recursions
are fuelled by the input length so that every function is structurally
recursive and kernel-reducible; each step consumes at least one character, so
a fuel equal to the input length is never exhausted. -/

/-- Python `str.split()` with no arguments: maximal runs of non-whitespace
characters, leading/trailing/repeated separators dropped. -/
def pySplitWords : ℕ → List Char → List String
  | 0, _ => []
  | _fuel + 1, [] => []
  | fuel + 1, c :: rest =>
    if c.isWhitespace then pySplitWords fuel rest
    else
      String.mk ((c :: rest).takeWhile (fun ch => !ch.isWhitespace)) ::
        pySplitWords fuel ((c :: rest).dropWhile (fun ch => !ch.isWhitespace))

/-- Python `text.split()`. -/
def pySplit (s : String) : List String := pySplitWords s.data.length s.data

/-- Python `str.strip()` on a character list. -/
def stripList (l : List Char) : List Char :=
  ((l.dropWhile Char.isWhitespace).reverse.dropWhile Char.isWhitespace).reverse

/-- Python `str.strip()`. -/
def pyStrip (s : String) : String := String.mk (stripList s.data)

/-- Python `str.lower()` (the source only lowercases ASCII keywords;
Japanese text is unaffected). -/
def pyLower (s : String) : String := String.mk (s.data.map Char.toLower)

/-- Fuelled scanner for Python `str.count(sub)`: counts non-overlapping
occurrences left to right, skipping past each match. -/
def countOccurGo (pat : List Char) : ℕ → List Char → ℕ
  | 0, _ => 0
  | _fuel + 1, [] => 0
  | fuel + 1, c :: rest =>
    if pat.isPrefixOf (c :: rest) then
      1 + countOccurGo pat fuel ((c :: rest).drop pat.length)
    else countOccurGo pat fuel rest

/-- Python `text.count(pat)` (for an empty pattern Python returns
`len(text) + 1`; the source only counts non-empty keyword literals). -/
def countOccur (pat text : List Char) : ℕ :=
  if pat = [] then text.length + 1 else countOccurGo pat text.length text

/-- Python `text.count(pat)` on `String`. -/
def pyCount (text pat : String) : ℕ := countOccur pat.data text.data

/-- Fuelled scanner for Python `str.replace(old, new)`: replaces all
non-overlapping occurrences left to right. -/
def pyReplaceGo (pat rep : List Char) : ℕ → List Char → List Char
  | 0, l => l
  | _fuel + 1, [] => []
  | fuel + 1, c :: rest =>
    if pat.isPrefixOf (c :: rest) then
      rep ++ pyReplaceGo pat rep fuel ((c :: rest).drop pat.length)
    else c :: pyReplaceGo pat rep fuel rest

/-- Python `s.replace(pat, rep)` (the source only replaces non-empty
dictionary keys; an empty pattern is returned unchanged here and is
unreachable in the modelled program). -/
def pyReplace (s pat rep : String) : String :=
  if pat.data = [] then s
  else String.mk (pyReplaceGo pat.data rep.data s.data.length s.data)

/-- Python `pat in s` substring test on character lists. -/
def listContainsSub (pat : List Char) : List Char → Bool
  | [] => pat.isEmpty
  | c :: rest => pat.isPrefixOf (c :: rest) || listContainsSub pat rest

/-- Python `pat in s` substring test on `String`. -/
def strContainsSub (s pat : String) : Bool := listContainsSub pat.data s.data

/-! ### Association lists

Python dicts preserve insertion order; they are modelled as association
lists where a fresh key is appended at the end and an existing key is
updated in place. -/

/-- Dict lookup: first binding of the key, scanning in insertion order. -/
def alistLookup {β : Type} : List (String × β) → String → Option β
  | [], _ => none
  | (k', v) :: rest, k => if k' = k then some v else alistLookup rest k

/-! ### The persisted JSON files

`save_learned_corrections` / `save_confidence_patterns` serialise the
in-memory dict with `json.dump`; `load_*` parse the file back and fall back
to `{}` on failure.  The JSON text itself is produced and parsed by Python's
`json` library; the embedding models the file at the level of the JSON value
written, which is what the loader's dict accesses consume. -/

inductive JsonValue where
  | jstr (s : String)
  | jnum (q : ℚ)
  | jint (n : ℤ)
  | jobj (fields : List (String × JsonValue))

/-- JSON value written for the learned-corrections dict
(`{original → corrected}`). -/
def encodeCorrections (m : List (String × String)) : JsonValue :=
  JsonValue.jobj (m.map (fun p => (p.1, JsonValue.jstr p.2)))

/-- Field-by-field reading of a learned-corrections JSON object. -/
def decodeCorrectionsFields : List (String × JsonValue) → Option (List (String × String))
  | [] => some []
  | (k, JsonValue.jstr v) :: rest =>
    (decodeCorrectionsFields rest).map (fun r => (k, v) :: r)
  | _ => none

/-- Reading the learned-corrections file back into a dict. -/
def decodeCorrections : JsonValue → Option (List (String × String))
  | JsonValue.jobj fields => decodeCorrectionsFields fields
  | _ => none

/-- A low-confidence token statistic
(`{avg_confidence, count, first_seen}` in the source, §3 of the spec's
`ConfidencePattern`). -/
structure ConfidencePattern where
  avg_confidence : ℚ
  count : ℕ
  first_seen : String
deriving DecidableEq

/-- JSON value written for one confidence pattern. -/
def encodeConfidenceValue (p : ConfidencePattern) : JsonValue :=
  JsonValue.jobj [(("avg_confidence"), JsonValue.jnum p.avg_confidence),
    (("count"), JsonValue.jint (p.count : ℤ)),
    (("first_seen"), JsonValue.jstr p.first_seen)]

/-- Reading one confidence pattern back. -/
def decodeConfidenceValue : JsonValue → Option ConfidencePattern
  | JsonValue.jobj [(("avg_confidence"), JsonValue.jnum q),
      (("count"), JsonValue.jint n),
      (("first_seen"), JsonValue.jstr t)] =>
    some { avg_confidence := q, count := n.toNat, first_seen := t }
  | _ => none

/-- JSON value written for the confidence-patterns dict. -/
def encodeConfidencePatterns (m : List (String × ConfidencePattern)) : JsonValue :=
  JsonValue.jobj (m.map (fun p => (p.1, encodeConfidenceValue p.2)))

/-- Field-by-field reading of the confidence-patterns JSON object. -/
def decodeConfidenceFields : List (String × JsonValue) → Option (List (String × ConfidencePattern))
  | [] => some []
  | (k, v) :: rest =>
    match decodeConfidenceValue v with
    | some p => (decodeConfidenceFields rest).map (fun r => (k, p) :: r)
    | none => none

/-- Reading the confidence-patterns file back into a dict. -/
def decodeConfidencePatterns : JsonValue → Option (List (String × ConfidencePattern))
  | JsonValue.jobj fields => decodeConfidenceFields fields
  | _ => none

/-- `load_learned_corrections`: parse the file, `{}` on failure. -/
def load_learned_corrections (file : JsonValue) : List (String × String) :=
  (decodeCorrections file).getD []

/-- `load_confidence_patterns`: parse the file, `{}` on failure. -/
def load_confidence_patterns (file : JsonValue) : List (String × ConfidencePattern) :=
  (decodeConfidencePatterns file).getD []

/-! ### Process-wide state -/

/-- `self.processing_stats` as initialised in
`ClaudeWhisperIntegration.__init__`. -/
structure ProcessingStats where
  total_files : ℕ
  successful_transcriptions : ℕ
  claude_corrections : ℕ
  claude_classifications : ℕ
  total_cost : ℚ
  classification_cost : ℚ
  processing_time : ℚ
  learned_patterns : ℕ
deriving DecidableEq

/-- All counters start at zero. -/
def initialStats : ProcessingStats :=
  { total_files := 0, successful_transcriptions := 0, claude_corrections := 0,
    claude_classifications := 0, total_cost := 0, classification_cost := 0,
    processing_time := 0, learned_patterns := 0 }

/-- The mutable state of `ClaudeWhisperIntegration`: the two in-memory
dicts, the two persisted files, and the stats counters. -/
structure IntegrationState where
  learned_corrections : List (String × String)
  confidence_patterns : List (String × ConfidencePattern)
  learned_corrections_file : JsonValue
  confidence_patterns_file : JsonValue
  processing_stats : ProcessingStats

/-- `__init__`: load both dicts from their files, zero the stats. -/
def initIntegration (f1 f2 : JsonValue) : IntegrationState :=
  { learned_corrections := load_learned_corrections f1,
    confidence_patterns := load_confidence_patterns f2,
    learned_corrections_file := f1,
    confidence_patterns_file := f2,
    processing_stats := initialStats }

/-- `save_learned_corrections`: overwrite the file with the in-memory dict. -/
def save_learned_corrections (st : IntegrationState) : IntegrationState :=
  { st with learned_corrections_file := encodeCorrections st.learned_corrections }

/-- `save_confidence_patterns`: overwrite the file with the in-memory dict. -/
def save_confidence_patterns (st : IntegrationState) : IntegrationState :=
  { st with confidence_patterns_file := encodeConfidencePatterns st.confidence_patterns }

/-- `clear_learned_patterns` (confirmed branch): empty both dicts and save. -/
def clear_learned_patterns (st : IntegrationState) : IntegrationState :=
  { st with
    learned_corrections := []
    confidence_patterns := []
    learned_corrections_file := encodeCorrections []
    confidence_patterns_file := encodeConfidencePatterns [] }

/-! ### learn_from_correction -/

/-- The decayed-average update applied to an existing confidence pattern
(`count += 1; avg_confidence = (avg_confidence + confidence) / 2`). -/
def confDecay (p : ConfidencePattern) (c : ℚ) : ConfidencePattern :=
  { avg_confidence := (p.avg_confidence + c) / 2, count := p.count + 1,
    first_seen := p.first_seen }

/-- In-place dict update of the pattern stored under key `k`. -/
def alistUpdateConf (l : List (String × ConfidencePattern)) (k : String) (c : ℚ) :
    List (String × ConfidencePattern) :=
  l.map (fun p => if p.1 = k then (p.1, confDecay p.2 c) else p)

/-- First loop of `learn_from_correction`: walk the positionally zipped
`(orig_word, corr_word)` pairs; when the tokens differ, both exceed two
characters and the raw token is not yet a key, append the new correction and
count it.  Returns the updated dict and the number of additions. -/
def learnCorrectionsStep : List (String × String) → List (String × String) →
    List (String × String) × ℕ
  | lc, [] => (lc, 0)
  | lc, (ow, cw) :: rest =>
    if ow ≠ cw ∧ 2 < ow.length ∧ 2 < cw.length then
      if (alistLookup lc ow).isSome then learnCorrectionsStep lc rest
      else
        let r := learnCorrectionsStep (lc ++ [(ow, cw)]) rest
        (r.1, r.2 + 1)
    else learnCorrectionsStep lc rest

/-- Second loop of `learn_from_correction`: for each
`{word, confidence}` entry, update the stripped token's pattern with the
decay formula if present, otherwise insert a fresh pattern (counted). -/
def learnConfidenceStep (now : String) : List (String × ConfidencePattern) →
    List (String × ℚ) → List (String × ConfidencePattern) × ℕ
  | cp, [] => (cp, 0)
  | cp, (w, c) :: rest =>
    if (alistLookup cp (pyStrip w)).isSome then
      learnConfidenceStep now (alistUpdateConf cp (pyStrip w) c) rest
    else
      let r := learnConfidenceStep now
        (cp ++ [(pyStrip w, { avg_confidence := c, count := 1, first_seen := now })]) rest
      (r.1, r.2 + 1)

/-- `learn_from_correction(original_text, corrected_text, low_confidence_words)`:
diff the whitespace-split texts positionally, learn the confidence patterns,
and — only when `learning_count > 0` — save both files and add the count to
the `learned_patterns` stat.  `now` models `datetime.now().isoformat()`. -/
def learn_from_correction (st : IntegrationState) (now original_text corrected_text : String)
    (low_confidence_words : List (String × ℚ)) : IntegrationState :=
  let r1 := learnCorrectionsStep st.learned_corrections
    ((pySplit original_text).zip (pySplit corrected_text))
  let r2 := learnConfidenceStep now st.confidence_patterns low_confidence_words
  let learning_count := r1.2 + r2.2
  if 0 < learning_count then
    { learned_corrections := r1.1
      confidence_patterns := r2.1
      learned_corrections_file := encodeCorrections r1.1
      confidence_patterns_file := encodeConfidencePatterns r2.1
      processing_stats := { st.processing_stats with
        learned_patterns := st.processing_stats.learned_patterns + learning_count } }
  else
    { st with learned_corrections := r1.1, confidence_patterns := r2.1 }

/-! ### _clean_text_basic

The source applies seven `re.sub` substitutions and a final `strip()`.
Each regex is re-implemented as a fuelled left-to-right scanner with the
same matching semantics (leftmost match, greedy quantifiers; the greedy
classes are disjoint from what follows them, so no backtracking arises). -/

/-- One maximal non-whitespace run, truncated at the first position where
`https?://` is followed by at least one further character of the run
(the regex `https?://[^\s]+` consumes the rest of the run). -/
def truncateUrlRun : List Char → List Char
  | [] => []
  | c :: rest =>
    if (String.mk [('h'), ('t'), ('t'), ('p'), (':'), ('/'), ('/')]).data.isPrefixOf (c :: rest) ∧
        7 < (c :: rest).length then []
    else if (String.mk [('h'), ('t'), ('t'), ('p'), ('s'), (':'), ('/'), ('/')]).data.isPrefixOf (c :: rest) ∧
        8 < (c :: rest).length then []
    else c :: truncateUrlRun rest

/-- `re.sub(r'https?://[^\s]+', '', text)`: since `[^\s]+` is greedy, a
match always consumes the remainder of the maximal non-whitespace run it
starts in, so the substitution truncates each run independently. -/
def removeUrlsGo : ℕ → List Char → List Char
  | 0, l => l
  | _fuel + 1, [] => []
  | fuel + 1, c :: rest =>
    if c.isWhitespace then c :: removeUrlsGo fuel rest
    else
      truncateUrlRun ((c :: rest).takeWhile (fun ch => !ch.isWhitespace)) ++
        removeUrlsGo fuel ((c :: rest).dropWhile (fun ch => !ch.isWhitespace))

/-- URL removal pass. -/
def removeUrls (l : List Char) : List Char := removeUrlsGo l.length l

/-- Match exactly `n` digits. -/
def expectDigits : ℕ → List Char → Option (List Char)
  | 0, l => some l
  | _ + 1, [] => none
  | n + 1, c :: rest => if c.isDigit then expectDigits n rest else none

/-- Match one literal character. -/
def expectChar (ch : Char) : List Char → Option (List Char)
  | [] => none
  | c :: rest => if c = ch then some rest else none

/-- Match `\s+` (one or more whitespace characters, maximal). -/
def expectWs1 : List Char → Option (List Char)
  | [] => none
  | c :: rest =>
    if c.isWhitespace then some (rest.dropWhile Char.isWhitespace) else none

/-- Match `\d{4}-\d{2}-\d{2}\s+\d{2}:\d{2}:\d{2}` at the head of the list. -/
def matchTimestamp (l : List Char) : Option (List Char) :=
  ((((((((((expectDigits 4 l).bind (expectChar ('-'))).bind
    (expectDigits 2)).bind (expectChar ('-'))).bind
    (expectDigits 2)).bind expectWs1).bind
    (expectDigits 2)).bind (expectChar (':'))).bind
    (expectDigits 2)).bind (expectChar (':'))).bind
    (expectDigits 2)

/-- `re.sub(r'\d{4}-\d{2}-\d{2}\s+\d{2}:\d{2}:\d{2}', '', text)`. -/
def removeTimestampsGo : ℕ → List Char → List Char
  | 0, l => l
  | _fuel + 1, [] => []
  | fuel + 1, c :: rest =>
    match matchTimestamp (c :: rest) with
    | some after => removeTimestampsGo fuel after
    | none => c :: removeTimestampsGo fuel rest

/-- Timestamp removal pass. -/
def removeTimestamps (l : List Char) : List Char := removeTimestampsGo l.length l

/-- `re.sub(r'=+', '', text)`: every `'='` is deleted. -/
def removeEquals (l : List Char) : List Char := l.filter (fun c => c ≠ ('='))

/-- Match `:\s*!\s*:` at the head of the list. -/
def matchColonBang (l : List Char) : Option (List Char) :=
  ((expectChar (':') l).map (fun r => r.dropWhile Char.isWhitespace)).bind
    (fun r => ((expectChar ('!') r).map
      (fun r2 => r2.dropWhile Char.isWhitespace)).bind (expectChar (':')))

/-- `re.sub(r':\s*!\s*:', '', text)`. -/
def removeColonBangGo : ℕ → List Char → List Char
  | 0, l => l
  | _fuel + 1, [] => []
  | fuel + 1, c :: rest =>
    match matchColonBang (c :: rest) with
    | some after => removeColonBangGo fuel after
    | none => c :: removeColonBangGo fuel rest

/-- Colon-bang removal pass. -/
def removeColonBang (l : List Char) : List Char := removeColonBangGo l.length l

/-- `re.sub(ch + '{2,}', ch, text)`: collapse each maximal run of `ch`
to a single `ch` (runs of length one are already single). -/
def collapseRunsGo (ch : Char) : ℕ → List Char → List Char
  | 0, l => l
  | _fuel + 1, [] => []
  | fuel + 1, c :: rest =>
    if c = ch then ch :: collapseRunsGo ch fuel (rest.dropWhile (fun d => d = ch))
    else c :: collapseRunsGo ch fuel rest

/-- Punctuation-run collapsing pass. -/
def collapseRuns (ch : Char) (l : List Char) : List Char := collapseRunsGo ch l.length l

/-- `re.sub(r'\s+', ' ', text)`: each maximal whitespace run becomes one
space. -/
def collapseWsGo : ℕ → List Char → List Char
  | 0, l => l
  | _fuel + 1, [] => []
  | fuel + 1, c :: rest =>
    if c.isWhitespace then
      (' ') :: collapseWsGo fuel (rest.dropWhile Char.isWhitespace)
    else c :: collapseWsGo fuel rest

/-- Whitespace-collapsing pass. -/
def collapseWs (l : List Char) : List Char := collapseWsGo l.length l

/-- `_clean_text_basic`: the seven substitutions in source order, then
`strip()`. -/
def clean_text_basic (text : String) : String :=
  String.mk (stripList (collapseWs (collapseRuns ('、')
    (collapseRuns ('。') (removeColonBang (removeEquals
      (removeTimestamps (removeUrls text.data))))))))

/-! ### Pattern-correction passes -/

/-- `self.whisper_patterns`: the built-in recognition-error dictionary, in
source declaration order. -/
def whisper_patterns : List (String × String) :=
  [(("地民党"), ("自民党")), (("石橋ロシ"), ("石破茂")), (("急安部派"), ("旧安倍派")),
   (("党生年局"), ("党執行部")), (("党主"), ("党首")), (("階段"), ("会談")),
   (("手動"), ("支持")), (("わわれな"), ("哀れな")), (("溜まるか"), ("たまるか")),
   (("駄目に"), ("だめに")), (("異見"), ("意見")), (("腐り切ってる"), ("腐りきっている")),
   (("ガソリンを"), ("ガソリン税を")), (("販売担保"), ("販売価格")),
   (("さっさに進化"), ("先走り")), (("ガソスタ"), ("ガソリンスタンド"))]

/-- `apply_learned_patterns`: replace each learned `original` that occurs as
a substring, in dict insertion order, each rule acting on the output of the
previous one. -/
def apply_learned_patterns (st : IntegrationState) (text : String) : String :=
  st.learned_corrections.foldl
    (fun corrected p =>
      if strContainsSub corrected p.1 then pyReplace corrected p.1 p.2 else corrected)
    text

/-- `_apply_whisper_patterns`: the static dictionary in order, then the
learned patterns. -/
def apply_whisper_patterns (st : IntegrationState) (text : String) : String :=
  apply_learned_patterns st
    (whisper_patterns.foldl (fun corrected p => pyReplace corrected p.1 p.2) text)

/-! ### The Claude rewrite call and the resolve step -/

/-- One attempt's outcome at the Claude messages endpoint, as discriminated
by `_call_claude_api` (HTTP 200, HTTP 429, another status, or a raised
`RequestException`). -/
inductive ClaudeApiOutcome where
  | httpOk (text : String)
  | rateLimited
  | httpError (code : ℕ)
  | requestError

/-- The retry loop of `_call_claude_api`: the `attempt`-th try observes
`outcomes attempt`; a 200 returns the stripped message text, anything else
(after the modelled sleep) moves to the next attempt until the retries are
exhausted, which yields `None`. -/
def callClaudeApiGo (outcomes : ℕ → ClaudeApiOutcome) : ℕ → ℕ → Option String
  | _attempt, 0 => none
  | attempt, remaining + 1 =>
    match outcomes attempt with
    | ClaudeApiOutcome.httpOk text => some (pyStrip text)
    | _ => callClaudeApiGo outcomes (attempt + 1) remaining

/-- `_call_claude_api(prompt, max_retries)` as a function of the sequence of
attempt outcomes. -/
def call_claude_api (outcomes : ℕ → ClaudeApiOutcome) (max_retries : ℕ) : Option String :=
  callClaudeApiGo outcomes 0 max_retries

/-- `_calculate_cost`: `len/1.5` pseudo-token counts at $3 and $15 per
million input/output tokens. -/
def calculate_cost (original corrected : String) : ℚ :=
  ((original.length : ℚ) / (3 / 2) / 1000000) * 3 +
    ((corrected.length : ℚ) / (3 / 2) / 1000000) * 15

/-- `_calculate_classification_cost`: the truncated-input variant
(`len(text[:500]) + 200` input pseudo-tokens, 10 output pseudo-tokens). -/
def calculate_classification_cost (text : String) : ℚ :=
  (((min text.length 500 + 200 : ℕ) : ℚ) / (3 / 2) / 1000000) * 3 +
    (((10 : ℚ) / (3 / 2)) / 1000000) * 15

/-- The result dict of `transcribe_with_claude_correction` (the fields the
claims observe). -/
structure TranscribeResult where
  success : Bool
  original_transcript : String
  corrected_transcript : String
  claude_applied : Bool
  cost : ℚ
  processing_time : ℚ
  word_level_data : List (String × ℚ)
deriving DecidableEq

/-- The tail of `transcribe_with_claude_correction` after a successful
Whisper call (source lines 813-851): clean, pattern-correct, then resolve
the Claude outcome.  `original_text` and `word_level_data` are the Whisper
outputs, `claude_corrected` the rewrite-oracle outcome, `elapsed` the wall
time added to the stats.  On `some`, the oracle text becomes the corrected
transcript, the cost is computed, `learn_from_correction` runs on the raw
text, the oracle text and the **full** word-level data, and the correction
stats are bumped; on `none`, the pattern-corrected text is the final text
and no learning occurs.  Both paths end successfully. -/
def transcribe_resolve (st : IntegrationState) (now original_text : String)
    (word_level_data : List (String × ℚ)) (claude_corrected : Option String)
    (elapsed : ℚ) : IntegrationState × TranscribeResult :=
  let pattern_corrected := apply_whisper_patterns st (clean_text_basic original_text)
  match claude_corrected with
  | some cc =>
    let cost := calculate_cost original_text cc
    let st1 := learn_from_correction st now original_text cc word_level_data
    let st2 := { st1 with processing_stats := { st1.processing_stats with
      claude_corrections := st1.processing_stats.claude_corrections + 1
      total_cost := st1.processing_stats.total_cost + cost } }
    let st3 := { st2 with processing_stats := { st2.processing_stats with
      successful_transcriptions := st2.processing_stats.successful_transcriptions + 1
      processing_time := st2.processing_stats.processing_time + elapsed } }
    (st3, { success := true
            original_transcript := original_text
            corrected_transcript := cc
            claude_applied := true
            cost := cost
            processing_time := elapsed
            word_level_data := word_level_data })
  | none =>
    let st2 := { st with processing_stats := { st.processing_stats with
      successful_transcriptions := st.processing_stats.successful_transcriptions + 1
      processing_time := st.processing_stats.processing_time + elapsed } }
    (st2, { success := true
            original_transcript := original_text
            corrected_transcript := pattern_corrected
            claude_applied := false
            cost := 0
            processing_time := elapsed
            word_level_data := word_level_data })

/-! ### Category classification -/

/-- `self.category_folders`: the enumerated category set (keys) with their
folder names, in source declaration order. -/
def category_folders : List (String × String) :=
  [(("ビジネス・経営"), ("business")), (("技術・プログラミング"), ("technology")),
   (("教育・学習"), ("education")), (("エンターテイメント"), ("entertainment")),
   (("日常・ライフスタイル"), ("lifestyle")), (("ニュース・時事"), ("news")),
   (("健康・医療"), ("health")), (("料理・グルメ"), ("cooking")),
   (("旅行・観光"), ("travel")), (("スポーツ・フィットネス"), ("sports")),
   (("音楽・アート"), ("music_art")), (("ゲーム"), ("gaming")),
   (("科学・研究"), ("science")), (("政治・社会"), ("politics")),
   (("その他"), ("others"))]

/-- `self.category_keywords`: the keyword fallback table, in source
declaration order. -/
def category_keywords : List (String × List String) :=
  [(("ビジネス・経営"), [("会議"), ("売上"), ("マーケティング"), ("戦略"), ("予算"),
     ("顧客"), ("営業"), ("経営"), ("投資"), ("ビジネス"), ("企業"), ("会社")]),
   (("技術・プログラミング"), [("プログラミング"), ("AI"), ("システム"), ("アプリ"),
     ("ソフトウェア"), ("データベース"), ("API"), ("クラウド"), ("アルゴリズム"),
     ("コンピュータ"), ("IT"), ("DX")]),
   (("政治・社会"), [("政治"), ("選挙"), ("政策"), ("国会"), ("議員"), ("政府"),
     ("自民党"), ("政党"), ("首相"), ("大臣"), ("法律"), ("制度"), ("改革"),
     ("社会問題")]),
   (("ニュース・時事"), [("ニュース"), ("報道"), ("事件"), ("社会"), ("経済"),
     ("国際"), ("速報"), ("記者会見"), ("発表"), ("調査")]),
   (("エンターテイメント"), [("映画"), ("音楽"), ("アニメ"), ("ゲーム"), ("芸能"),
     ("ちいかわ"), ("ドラマ"), ("バラエティ"), ("アイドル"), ("俳優"), ("歌手")]),
   (("料理・グルメ"), [("料理"), ("レシピ"), ("食材"), ("グルメ"), ("あげ玉"),
     ("そうめん"), ("食事"), ("調理"), ("レストラン"), ("美味しい"), ("食べ物")]),
   (("スポーツ・フィットネス"), [("スポーツ"), ("フィットネス"), ("運動"),
     ("トレーニング"), ("競技"), ("筋トレ"), ("野球"), ("サッカー"), ("MVP"),
     ("大谷翔平"), ("大谷"), ("ジャッジ"), ("ドジャース"), ("ヤンキース"),
     ("メジャーリーグ"), ("MLB"), ("バスケ"), ("テニス"), ("ゴルフ")]),
   (("教育・学習"), [("学習"), ("授業"), ("講義"), ("試験"), ("研究"), ("論文"),
     ("学生"), ("教育"), ("勉強"), ("資格"), ("大学"), ("学校")]),
   (("健康・医療"), [("健康"), ("医療"), ("病気"), ("治療"), ("ダイエット"),
     ("フィットネス"), ("栄養"), ("予防"), ("薬"), ("医師")]),
   (("日常・ライフスタイル"), [("家族"), ("友人"), ("買い物"), ("生活"), ("趣味"),
     ("ファッション"), ("美容"), ("インテリア"), ("日常"), ("ライフスタイル")]),
   (("旅行・観光"), [("旅行"), ("観光"), ("ホテル"), ("観光地"), ("海外"),
     ("国内旅行"), ("温泉"), ("リゾート")]),
   (("音楽・アート"), [("音楽"), ("アート"), ("芸術"), ("楽器"), ("絵画"),
     ("デザイン"), ("クリエイティブ")]),
   (("ゲーム"), [("ビデオゲーム"), ("ゲーム実況"), ("eスポーツ"), ("ゲーム開発"),
     ("プレイ")]),
   (("科学・研究"), [("科学"), ("研究"), ("実験"), ("理論"), ("発見"),
     ("学術論文"), ("技術革新")])]

/-- The keyword scores of `classify_text`: for each category, the sum over
its keywords of `text.lower().count(keyword.lower())`. -/
def categoryScores (text : String) : List (String × ℕ) :=
  category_keywords.map
    (fun ck => (ck.1, (ck.2.map (fun kw => pyCount (pyLower text) (pyLower kw))).sum))

/-- Python `max(iterable, key=...)` over (category, score) pairs: keeps the
current best and replaces it only on a strictly larger score, so the first
maximal element wins. -/
def pyMaxGo : (String × ℕ) → List (String × ℕ) → (String × ℕ)
  | best, [] => best
  | best, p :: rest => pyMaxGo (if best.2 < p.2 then p else best) rest

/-- The keyword fallback category:
`max(category_scores, key=category_scores.get) if max(values) > 0 else "その他"`.
The scores list passed by `classify_text` is the fixed 14-category table and
is never empty. -/
def fallbackCategoryOf (scores : List (String × ℕ)) : String :=
  match scores with
  | [] => ("その他")
  | p :: rest => if (p :: rest).any (fun q => 0 < q.2) then (pyMaxGo p rest).1 else ("その他")

/-- `classify_text` together with the validation and stats bookkeeping of
`_classify_with_claude_api`: `oracle` is the classification endpoint's
message text (`none` models an HTTP error or raised exception).  A stripped
oracle label that is a key of `category_folders` is returned (and the
classification stats are bumped); anything else falls back to the keyword
result. -/
def classify_text (st : IntegrationState) (oracle : Option String) (text : String) :
    IntegrationState × String :=
  let fallback_category := fallbackCategoryOf (categoryScores text)
  match oracle with
  | some raw =>
    if (alistLookup category_folders (pyStrip raw)).isSome then
      ({ st with processing_stats := { st.processing_stats with
          classification_cost := st.processing_stats.classification_cost +
            calculate_classification_cost text
          claude_classifications := st.processing_stats.claude_classifications + 1 } },
        pyStrip raw)
    else (st, fallback_category)
  | none => (st, fallback_category)

/-- The oracle label is unusable: the call failed, or the returned label is
not an exact member of the enumerated set. -/
def oracleInvalid (oracle : Option String) : Prop :=
  oracle = none ∨
    ∃ raw, oracle = some raw ∧ (alistLookup category_folders (pyStrip raw)).isSome = false

/-! ### The retrieval index -/

/-- One record of the JSON database, as assembled by `add_to_database`
(`saved_file_path` is the key added only after a successful transcript-file
write, modelled as an optional field). -/
structure DbEntry where
  id : ℕ
  source_type : String
  source_path : String
  title : String
  original_transcript : String
  corrected_transcript : String
  category : String
  embedding : List ℚ
  created_at : String
  processing_info : TranscribeResult
  word_count : ℕ
  char_count : ℕ
  saved_file_path : Option String
deriving DecidableEq

/-- The state of `IntegratedVoiceRAGSystem`'s store: the in-memory list and
the persisted file contents (`save_database` rewrites the file wholesale). -/
structure RagState where
  database : List DbEntry
  database_file : List DbEntry
deriving DecidableEq

/-- The entry dict built at the top of `add_to_database`
(`id = len(database) + 1`, embedding from the sentence model, counts from
the corrected text). -/
def mkDbEntry (db_len : ℕ) (embed : String → List ℚ)
    (now source_type source_path title original corrected category : String)
    (pinfo : TranscribeResult) : DbEntry :=
  { id := db_len + 1, source_type := source_type, source_path := source_path,
    title := title, original_transcript := original,
    corrected_transcript := corrected, category := category,
    embedding := embed corrected, created_at := now, processing_info := pinfo,
    word_count := (pySplit corrected).length, char_count := corrected.length,
    saved_file_path := none }

/-- `add_to_database`: append the entry and save; then attempt the
human-readable transcript file (`save_transcript_to_file` catches every
exception internally and returns `None` on failure, modelled by
`saved_file`); only on success is the path recorded on the already-appended
entry and the database saved again. -/
def add_to_database (st : RagState) (embed : String → List ℚ)
    (now source_type source_path title original corrected category : String)
    (pinfo : TranscribeResult) (saved_file : Option String) : RagState :=
  let entry := mkDbEntry st.database.length embed now source_type source_path
    title original corrected category pinfo
  let db1 := st.database ++ [entry]
  match saved_file with
  | some path =>
    let db2 := st.database ++ [{ entry with saved_file_path := some path }]
    { database := db2, database_file := db2 }
  | none => { database := db1, database_file := db1 }

/-- Stable descending insertion by similarity: the new, later element goes
after every element with an equal or larger score. -/
def insertDescBySim {α : Type} (x : α × ℚ) : List (α × ℚ) → List (α × ℚ)
  | [] => [x]
  | y :: ys => if x.2 ≤ y.2 then y :: insertDescBySim x ys else x :: y :: ys

/-- `similarities.sort(key=lambda x: x[1], reverse=True)`: Python's sort is
stable, and a left fold of stable descending insertions produces exactly the
stable descending order. -/
def sortBySimDesc {α : Type} (l : List (α × ℚ)) : List (α × ℚ) :=
  l.foldl (fun acc x => insertDescBySim x acc) []

/-- Python `l[:k]`: the first `k` elements for `k ≥ 0`, all but the last
`|k|` elements for `k < 0`. -/
def pySliceTo {α : Type} (k : ℤ) (l : List α) : List α :=
  if 0 ≤ k then l.take k.toNat else l.take ((l.length : ℤ) + k).toNat

/-- `search_similar(query, top_k)` (identical in both source files): empty
store short-circuits; otherwise every entry is paired with its similarity
to the query, sorted descending, and sliced.  `sim e` models
`cosine_similarity([query_embedding], [entry_embedding])[0][0]` — the
embedding model and the float cosine are external numerics; the claims
depend only on the resulting per-entry scores. -/
def search_similar {α : Type} (database : List α) (sim : α → ℚ) (top_k : ℤ) :
    List (α × ℚ) :=
  if database.isEmpty then []
  else pySliceTo top_k (sortBySimDesc (database.map (fun e => (e, sim e))))

/-! ### Reachable states of the integration object -/

/-- States of `ClaudeWhisperIntegration` reachable from `__init__` through
the operations that touch `processing_stats` or the pattern store:
`learn_from_correction`, the transcription resolve step, classification,
and the pattern-clearing menu action. -/
inductive ReachableIntegration : IntegrationState → Prop where
  | init (f1 f2 : JsonValue) : ReachableIntegration (initIntegration f1 f2)
  | learn (s : IntegrationState) (now o c : String) (lw : List (String × ℚ))
      (h : ReachableIntegration s) :
      ReachableIntegration (learn_from_correction s now o c lw)
  | transcribe (s : IntegrationState) (now o : String) (wld : List (String × ℚ))
      (oracle : Option String) (elapsed : ℚ) (h : ReachableIntegration s) :
      ReachableIntegration (transcribe_resolve s now o wld oracle elapsed).1
  | classify (s : IntegrationState) (oracle : Option String) (text : String)
      (h : ReachableIntegration s) :
      ReachableIntegration (classify_text s oracle text).1
  | clearPatterns (s : IntegrationState) (h : ReachableIntegration s) :
      ReachableIntegration (clear_learned_patterns s)

/-! ### Association-list lemmas -/

theorem alistLookup_append_some {β : Type} {l1 : List (String × β)} {k : String} {v : β}
    (l2 : List (String × β)) (h : alistLookup l1 k = some v) :
    alistLookup (l1 ++ l2) k = some v := by
  induction l1 with
  | nil => simp [alistLookup] at h
  | cons p rest ih =>
    obtain ⟨k', v'⟩ := p
    simp only [alistLookup] at h
    simp only [List.cons_append, alistLookup]
    by_cases hk : k' = k
    · rw [if_pos hk] at h ⊢
      exact h
    · rw [if_neg hk] at h ⊢
      exact ih h

theorem alistLookup_append_none {β : Type} {l1 : List (String × β)} {k : String}
    (l2 : List (String × β)) (h : alistLookup l1 k = none) :
    alistLookup (l1 ++ l2) k = alistLookup l2 k := by
  induction l1 with
  | nil => simp [alistLookup]
  | cons p rest ih =>
    obtain ⟨k', v'⟩ := p
    simp only [alistLookup] at h
    simp only [List.cons_append, alistLookup]
    by_cases hk : k' = k
    · rw [if_pos hk] at h
      exact absurd h (by simp)
    · rw [if_neg hk] at h ⊢
      exact ih h

theorem alistLookup_updateConf (l : List (String × ConfidencePattern)) (k k' : String)
    (c : ℚ) :
    alistLookup (alistUpdateConf l k c) k' =
      Option.map (fun p => if k' = k then confDecay p c else p) (alistLookup l k') := by
  induction l with
  | nil => rfl
  | cons p rest ih =>
    obtain ⟨k0, v0⟩ := p
    show alistLookup
        ((if k0 = k then (k0, confDecay v0 c) else (k0, v0)) :: alistUpdateConf rest k c) k' =
      Option.map (fun p => if k' = k then confDecay p c else p)
        (if k0 = k' then some v0 else alistLookup rest k')
    by_cases hk : k0 = k
    · subst hk
      by_cases h0 : k0 = k'
      · subst h0
        rw [if_pos rfl, if_pos rfl]
        simp [alistLookup]
      · rw [if_pos rfl, if_neg h0]
        simp only [alistLookup, if_neg h0]
        exact ih
    · rw [if_neg hk]
      by_cases h0 : k0 = k'
      · subst h0
        simp [alistLookup, hk]
      · rw [if_neg h0]
        simp only [alistLookup, if_neg h0]
        exact ih

theorem alistLookup_updateConf_isSome (l : List (String × ConfidencePattern))
    (k k' : String) (c : ℚ) :
    (alistLookup (alistUpdateConf l k c) k').isSome = (alistLookup l k').isSome := by
  rw [alistLookup_updateConf]
  cases alistLookup l k' <;> simp

/-! ### JSON round-trip lemmas -/

theorem decodeCorrections_encode (m : List (String × String)) :
    decodeCorrections (encodeCorrections m) = some m := by
  induction m with
  | nil => rfl
  | cons p rest ih =>
    simp only [encodeCorrections, decodeCorrections, List.map_cons,
      decodeCorrectionsFields] at ih ⊢
    rw [ih]
    rfl

theorem decodeConfidenceValue_encode (p : ConfidencePattern) :
    decodeConfidenceValue (encodeConfidenceValue p) = some p := by
  simp [encodeConfidenceValue, decodeConfidenceValue]

theorem decodeConfidencePatterns_encode (m : List (String × ConfidencePattern)) :
    decodeConfidencePatterns (encodeConfidencePatterns m) = some m := by
  induction m with
  | nil => rfl
  | cons p rest ih =>
    simp only [encodeConfidencePatterns, decodeConfidencePatterns, List.map_cons,
      decodeConfidenceFields] at ih ⊢
    rw [decodeConfidenceValue_encode, ih]
    rfl

/-! ### learnCorrectionsStep lemmas -/

theorem learnCorrectionsStep_lookup_some :
    ∀ (pairs lc : List (String × String)) (k v : String),
      alistLookup lc k = some v →
      alistLookup (learnCorrectionsStep lc pairs).1 k = some v := by
  intro pairs
  induction pairs with
  | nil =>
    intro lc k v h
    simpa [learnCorrectionsStep] using h
  | cons p rest ih =>
    intro lc k v h
    obtain ⟨ow, cw⟩ := p
    simp only [learnCorrectionsStep]
    by_cases hc : ow ≠ cw ∧ 2 < ow.length ∧ 2 < cw.length
    · rw [if_pos hc]
      by_cases hs : (alistLookup lc ow).isSome
      · rw [if_pos hs]
        exact ih lc k v h
      · rw [if_neg hs]
        exact ih (lc ++ [(ow, cw)]) k v (alistLookup_append_some _ h)
    · rw [if_neg hc]
      exact ih lc k v h

theorem learnCorrectionsStep_lookup_none :
    ∀ (pairs lc : List (String × String)) (k : String),
      alistLookup lc k = none →
      alistLookup (learnCorrectionsStep lc pairs).1 k =
        Option.map Prod.snd (pairs.find?
          (fun p => decide (p.1 = k ∧ p.1 ≠ p.2 ∧ 2 < p.1.length ∧ 2 < p.2.length))) := by
  intro pairs
  induction pairs with
  | nil =>
    intro lc k h
    simpa [learnCorrectionsStep, List.find?] using h
  | cons p rest ih =>
    intro lc k h
    obtain ⟨ow, cw⟩ := p
    simp only [learnCorrectionsStep]
    by_cases hc : ow ≠ cw ∧ 2 < ow.length ∧ 2 < cw.length
    · rw [if_pos hc]
      by_cases hs : (alistLookup lc ow).isSome
      · rw [if_pos hs]
        have how : ow ≠ k := by
          intro he
          rw [he, h] at hs
          simp at hs
        rw [List.find?_cons_of_neg _ (by simp [how])]
        exact ih lc k h
      · rw [if_neg hs]
        by_cases how : ow = k
        · subst how
          rw [List.find?_cons_of_pos _ (by simp [hc.1, hc.2.1, hc.2.2])]
          have hlk : alistLookup (lc ++ [(ow, cw)]) ow = some cw := by
            rw [alistLookup_append_none _ h]
            simp [alistLookup]
          simpa using learnCorrectionsStep_lookup_some rest _ ow cw hlk
        · rw [List.find?_cons_of_neg _ (by simp [how])]
          have hlk : alistLookup (lc ++ [(ow, cw)]) k = none := by
            rw [alistLookup_append_none _ h]
            simp [alistLookup, how]
          simpa using ih (lc ++ [(ow, cw)]) k hlk
    · rw [if_neg hc]
      have hpred : ¬(ow = k ∧ ow ≠ cw ∧ 2 < ow.length ∧ 2 < cw.length) := by
        intro hh
        exact hc ⟨hh.2.1, hh.2.2⟩
      rw [List.find?_cons_of_neg _ (by simpa using hpred)]
      exact ih lc k h

/-! ### learnConfidenceStep lemma -/

theorem learnConfidenceStep_count_zero :
    ∀ (lw : List (String × ℚ)) (cp : List (String × ConfidencePattern)) (now : String),
      (∀ wc ∈ lw, (alistLookup cp (pyStrip wc.1)).isSome = true) →
      (learnConfidenceStep now cp lw).2 = 0 := by
  intro lw
  induction lw with
  | nil =>
    intro cp now _
    rfl
  | cons wc rest ih =>
    intro cp now h
    obtain ⟨w, c⟩ := wc
    have hw : (alistLookup cp (pyStrip w)).isSome = true := h (w, c) (List.mem_cons_self _ _)
    simp only [learnConfidenceStep]
    rw [if_pos hw]
    apply ih
    intro wc' hm
    rw [alistLookup_updateConf_isSome]
    exact h wc' (List.mem_cons_of_mem _ hm)

/-! ### Zip truncation -/

theorem zip_take_min {γ : Type} (ws : List γ) :
    ∀ cs : List γ,
      ws.zip cs = (ws.take (min ws.length cs.length)).zip
        (cs.take (min ws.length cs.length)) := by
  induction ws with
  | nil =>
    intro cs
    simp
  | cons a ws ih =>
    intro cs
    cases cs with
    | nil => simp
    | cons b cs =>
      simp only [List.length_cons, Nat.succ_min_succ, List.take_succ_cons,
        List.zip_cons_cons]
      rw [← ih cs]

/-! ### Sorting lemmas for search_similar -/

theorem length_insertDescBySim {α : Type} (x : α × ℚ) (l : List (α × ℚ)) :
    (insertDescBySim x l).length = l.length + 1 := by
  induction l with
  | nil => rfl
  | cons y ys ih =>
    simp only [insertDescBySim]
    by_cases hc : x.2 ≤ y.2
    · rw [if_pos hc]
      simp [ih]
    · rw [if_neg hc]
      simp

theorem length_foldl_insertDescBySim {α : Type} :
    ∀ (l acc : List (α × ℚ)),
      (l.foldl (fun a x => insertDescBySim x a) acc).length = acc.length + l.length := by
  intro l
  induction l with
  | nil => simp
  | cons y ys ih =>
    intro acc
    simp only [List.foldl_cons]
    rw [ih, length_insertDescBySim]
    simp only [List.length_cons]
    omega

theorem length_sortBySimDesc {α : Type} (l : List (α × ℚ)) :
    (sortBySimDesc l).length = l.length := by
  simpa [sortBySimDesc] using length_foldl_insertDescBySim l []

theorem insertDescBySim_head? {α : Type} (x : α × ℚ) (l : List (α × ℚ)) :
    (insertDescBySim x l).head? = some x ∨ (insertDescBySim x l).head? = l.head? := by
  cases l with
  | nil => left; rfl
  | cons y ys =>
    simp only [insertDescBySim]
    by_cases hc : x.2 ≤ y.2
    · rw [if_pos hc]
      right; rfl
    · rw [if_neg hc]
      left; rfl

theorem chain'_insertDescBySim {α : Type} (x : α × ℚ) (l : List (α × ℚ))
    (h : List.Chain' (fun a b : α × ℚ => b.2 ≤ a.2) l) :
    List.Chain' (fun a b : α × ℚ => b.2 ≤ a.2) (insertDescBySim x l) := by
  induction l with
  | nil => simp [insertDescBySim]
  | cons y ys ih =>
    simp only [insertDescBySim]
    by_cases hc : x.2 ≤ y.2
    · rw [if_pos hc]
      rcases List.chain'_cons'.mp h with ⟨hhead, htail⟩
      apply List.chain'_cons'.mpr
      refine ⟨?_, ih htail⟩
      intro z hz
      rcases insertDescBySim_head? x ys with hh | hh
      · rw [hh] at hz
        simp only [Option.mem_def, Option.some_inj] at hz
        subst hz
        exact hc
      · rw [hh] at hz
        exact hhead z hz
    · rw [if_neg hc]
      apply List.chain'_cons'.mpr
      refine ⟨?_, h⟩
      intro z hz
      simp only [List.head?_cons, Option.mem_def, Option.some_inj] at hz
      subst hz
      exact le_of_not_le hc

theorem chain'_foldl_insertDescBySim {α : Type} :
    ∀ (l acc : List (α × ℚ)),
      List.Chain' (fun a b : α × ℚ => b.2 ≤ a.2) acc →
      List.Chain' (fun a b : α × ℚ => b.2 ≤ a.2)
        (l.foldl (fun a x => insertDescBySim x a) acc) := by
  intro l
  induction l with
  | nil =>
    intro acc h
    simpa using h
  | cons y ys ih =>
    intro acc h
    simp only [List.foldl_cons]
    exact ih _ (chain'_insertDescBySim y acc h)

theorem chain'_sortBySimDesc {α : Type} (l : List (α × ℚ)) :
    List.Chain' (fun a b : α × ℚ => b.2 ≤ a.2) (sortBySimDesc l) :=
  chain'_foldl_insertDescBySim l [] (by simp)

/-! ### First-maximum characterisation of the keyword fallback -/

theorem pyMaxGo_spec :
    ∀ (l : List (String × ℕ)) (best : String × ℕ),
      (pyMaxGo best l = best ∧ ∀ p ∈ l, p.2 ≤ best.2) ∨
      (∃ i, ∃ hi : i < l.length, pyMaxGo best l = l.get ⟨i, hi⟩ ∧
        best.2 < (l.get ⟨i, hi⟩).2 ∧
        (∀ j, ∀ hj : j < l.length, j < i → (l.get ⟨j, hj⟩).2 < (l.get ⟨i, hi⟩).2) ∧
        (∀ j, ∀ hj : j < l.length, (l.get ⟨j, hj⟩).2 ≤ (l.get ⟨i, hi⟩).2)) := by
  intro l
  induction l with
  | nil =>
    intro best
    left
    exact ⟨rfl, by simp⟩
  | cons p rest ih =>
    intro best
    simp only [pyMaxGo]
    by_cases hb : best.2 < p.2
    · rw [if_pos hb]
      rcases ih p with ⟨heq, hall⟩ | ⟨i, hi, heq, hlt, hbefore, hall⟩
      · right
        refine ⟨0, by simp, heq, hb, ?_, ?_⟩
        · intro j hj hj0
          omega
        · intro j hj
          simp only [List.length_cons] at hj
          cases j with
          | zero => exact le_rfl
          | succ j => exact hall _ (rest.get_mem _ _)
      · right
        refine ⟨i + 1, by simp only [List.length_cons]; omega, heq, lt_trans hb hlt,
          ?_, ?_⟩
        · intro j hj hji
          simp only [List.length_cons] at hj
          cases j with
          | zero => exact hlt
          | succ j => exact hbefore j (by omega) (by omega)
        · intro j hj
          simp only [List.length_cons] at hj
          cases j with
          | zero => exact le_of_lt hlt
          | succ j => exact hall j (by omega)
    · rw [if_neg hb]
      have hple : p.2 ≤ best.2 := Nat.le_of_not_lt hb
      rcases ih best with ⟨heq, hall⟩ | ⟨i, hi, heq, hlt, hbefore, hall⟩
      · left
        refine ⟨heq, ?_⟩
        intro q hq
        rcases List.mem_cons.mp hq with hq | hq
        · subst hq
          exact hple
        · exact hall q hq
      · right
        refine ⟨i + 1, by simp only [List.length_cons]; omega, heq, hlt, ?_, ?_⟩
        · intro j hj hji
          simp only [List.length_cons] at hj
          cases j with
          | zero => exact lt_of_le_of_lt hple hlt
          | succ j => exact hbefore j (by omega) (by omega)
        · intro j hj
          simp only [List.length_cons] at hj
          cases j with
          | zero => exact le_of_lt (lt_of_le_of_lt hple hlt)
          | succ j => exact hall j (by omega)

theorem fallbackCategoryOf_spec (scores : List (String × ℕ))
    (hne : ∃ p ∈ scores, 0 < p.2) :
    ∃ i, ∃ hi : i < scores.length,
      fallbackCategoryOf scores = (scores.get ⟨i, hi⟩).1 ∧
      (∀ j, ∀ hj : j < scores.length, (scores.get ⟨j, hj⟩).2 ≤ (scores.get ⟨i, hi⟩).2) ∧
      (∀ j, ∀ hj : j < scores.length, j < i → (scores.get ⟨j, hj⟩).2 < (scores.get ⟨i, hi⟩).2) := by
  cases scores with
  | nil => simp at hne
  | cons p rest =>
    have hany : (p :: rest).any (fun q => 0 < q.2) = true := by
      rcases hne with ⟨q, hq, h0⟩
      exact List.any_eq_true.mpr ⟨q, hq, by simpa using h0⟩
    simp only [fallbackCategoryOf, hany, if_pos]
    rcases pyMaxGo_spec rest p with ⟨heq, hall⟩ | ⟨i, hi, heq, hlt, hbefore, hall⟩
    · refine ⟨0, by simp, by rw [heq]; rfl, ?_, ?_⟩
      · intro j hj
        simp only [List.length_cons] at hj
        cases j with
        | zero => exact le_rfl
        | succ j => exact hall _ (rest.get_mem _ _)
      · intro j hj hj0
        omega
    · refine ⟨i + 1, by simp only [List.length_cons]; omega, by rw [heq]; rfl, ?_, ?_⟩
      · intro j hj
        simp only [List.length_cons] at hj
        cases j with
        | zero => exact le_of_lt hlt
        | succ j => exact hall j (by omega)
      · intro j hj hji
        simp only [List.length_cons] at hj
        cases j with
        | zero => exact hlt
        | succ j => exact hbefore j (by omega) (by omega)

/-! ### learn_from_correction unfolding helpers -/

theorem learn_from_correction_insert_one (st : IntegrationState) (now w : String) (c : ℚ)
    (h : alistLookup st.confidence_patterns (pyStrip w) = none) :
    learn_from_correction st now ("") ("") [(w, c)] =
      { learned_corrections := st.learned_corrections
        confidence_patterns := st.confidence_patterns ++
          [(pyStrip w, { avg_confidence := c, count := 1, first_seen := now })]
        learned_corrections_file := encodeCorrections st.learned_corrections
        confidence_patterns_file := encodeConfidencePatterns (st.confidence_patterns ++
          [(pyStrip w, { avg_confidence := c, count := 1, first_seen := now })])
        processing_stats := { st.processing_stats with
          learned_patterns := st.processing_stats.learned_patterns + 1 } } := by
  have h2 : learnConfidenceStep now st.confidence_patterns [(w, c)] =
      (st.confidence_patterns ++
        [(pyStrip w, { avg_confidence := c, count := 1, first_seen := now })], 1) := by
    simp only [learnConfidenceStep]
    rw [if_neg (by rw [h]; simp)]
  have h1 : learnCorrectionsStep st.learned_corrections
      ((pySplit (("")) ).zip (pySplit (("")))) = (st.learned_corrections, 0) := rfl
  simp only [learn_from_correction, h1, h2]
  norm_num

theorem learn_from_correction_update_one (st : IntegrationState) (now w : String) (c : ℚ)
    (p : ConfidencePattern)
    (h : alistLookup st.confidence_patterns (pyStrip w) = some p) :
    learn_from_correction st now ("") ("") [(w, c)] =
      { st with confidence_patterns := alistUpdateConf st.confidence_patterns (pyStrip w) c } := by
  have h2 : learnConfidenceStep now st.confidence_patterns [(w, c)] =
      (alistUpdateConf st.confidence_patterns (pyStrip w) c, 0) := by
    simp only [learnConfidenceStep]
    rw [if_pos (by rw [h]; rfl)]
  have h1 : learnCorrectionsStep st.learned_corrections
      ((pySplit (("")) ).zip (pySplit (("")))) = (st.learned_corrections, 0) := rfl
  simp only [learn_from_correction, h1, h2]
  norm_num

theorem learn_from_correction_total_files (st : IntegrationState)
    (now o c : String) (lw : List (String × ℚ)) :
    (learn_from_correction st now o c lw).processing_stats.total_files =
      st.processing_stats.total_files := by
  simp only [learn_from_correction]
  split <;> rfl

/-! ### Claim theorems -/

/-- The two-then-three observation chain of the confidence decay, for any
starting state in which the token is unknown. -/
theorem confidence_decay_chain (st : IntegrationState) (w : String) (c1 c2 c3 : ℚ)
    (t1 t2 t3 : String)
    (h : alistLookup st.confidence_patterns (pyStrip w) = none) :
    alistLookup (learn_from_correction (learn_from_correction st t1 ("") ("") [(w, c1)])
        t2 ("") ("") [(w, c2)]).confidence_patterns (pyStrip w) =
      some { avg_confidence := (c1 + c2) / 2, count := 2, first_seen := t1 } ∧
    alistLookup (learn_from_correction (learn_from_correction (learn_from_correction st
        t1 ("") ("") [(w, c1)]) t2 ("") ("") [(w, c2)]) t3 ("") ("") [(w, c3)]).confidence_patterns
        (pyStrip w) =
      some { avg_confidence := ((c1 + c2) / 2 + c3) / 2, count := 3, first_seen := t1 } := by
  have e1 := learn_from_correction_insert_one st t1 w c1 h
  have hl1 : alistLookup (learn_from_correction st t1 ("") ("") [(w, c1)]).confidence_patterns
      (pyStrip w) = some { avg_confidence := c1, count := 1, first_seen := t1 } := by
    rw [e1]
    rw [alistLookup_append_none _ h]
    simp [alistLookup]
  have e2 := learn_from_correction_update_one _ t2 w c2 _ hl1
  have hl2 : alistLookup (learn_from_correction (learn_from_correction st t1 ("") ("")
      [(w, c1)]) t2 ("") ("") [(w, c2)]).confidence_patterns (pyStrip w) =
      some { avg_confidence := (c1 + c2) / 2, count := 2, first_seen := t1 } := by
    rw [e2]
    show alistLookup (alistUpdateConf _ _ _) _ = _
    rw [alistLookup_updateConf, hl1]
    simp [confDecay]
  have e3 := learn_from_correction_update_one _ t3 w c3 _ hl2
  have hl3 : alistLookup (learn_from_correction (learn_from_correction (learn_from_correction
      st t1 ("") ("") [(w, c1)]) t2 ("") ("") [(w, c2)]) t3 ("") ("")
      [(w, c3)]).confidence_patterns (pyStrip w) =
      some { avg_confidence := ((c1 + c2) / 2 + c3) / 2, count := 3, first_seen := t1 } := by
    rw [e3]
    show alistLookup (alistUpdateConf _ _ _) _ = _
    rw [alistLookup_updateConf, hl2]
    simp [confDecay]
  exact ⟨hl2, hl3⟩

/-- C1: confidence decay.  A token first observed with confidence `c1` and
observed again with `c2` is stored with `avg_confidence = (c1 + c2)/2` and
`count = 2`; a third observation `c3` yields
`avg_confidence = ((c1 + c2)/2 + c3)/2` and `count = 3` — the
recency-weighted pairwise average, which at the concrete confidences
0.3, 0.5, 0.9 differs from the arithmetic mean `(c1 + c2 + c3)/3`. -/
theorem confidence_decay_c1 (st : IntegrationState) (w : String) (c1 c2 c3 : ℚ)
    (t1 t2 t3 : String)
    (h : alistLookup st.confidence_patterns (pyStrip w) = none) :
    alistLookup (learn_from_correction (learn_from_correction st t1 ("") ("") [(w, c1)])
        t2 ("") ("") [(w, c2)]).confidence_patterns (pyStrip w) =
      some { avg_confidence := (c1 + c2) / 2, count := 2, first_seen := t1 } ∧
    alistLookup (learn_from_correction (learn_from_correction (learn_from_correction st
        t1 ("") ("") [(w, c1)]) t2 ("") ("") [(w, c2)]) t3 ("") ("") [(w, c3)]).confidence_patterns
        (pyStrip w) =
      some { avg_confidence := ((c1 + c2) / 2 + c3) / 2, count := 3, first_seen := t1 } ∧
    alistLookup (learn_from_correction (learn_from_correction (learn_from_correction
        (initIntegration (JsonValue.jobj []) (JsonValue.jobj [])) ("t1") ("") ("")
        [(("党主"), 3/10)]) ("t2") ("") ("") [(("党主"), 1/2)]) ("t3") ("") ("")
        [(("党主"), 9/10)]).confidence_patterns (pyStrip ("党主")) ≠
      some { avg_confidence := (3/10 + 1/2 + 9/10) / 3, count := 3, first_seen := ("t1") } := by
  obtain ⟨h2, h3⟩ := confidence_decay_chain st w c1 c2 c3 t1 t2 t3 h
  refine ⟨h2, h3, ?_⟩
  have hc := (confidence_decay_chain (initIntegration (JsonValue.jobj []) (JsonValue.jobj []))
    ("党主") (3/10) (1/2) (9/10) ("t1") ("t2") ("t3") rfl).2
  rw [hc]
  simp only [ne_eq, Option.some_inj, ConfidencePattern.mk.injEq, not_and]
  intro h1
  norm_num at h1

/-- C1 witness: the spec's own scenario — token `"党主"` observed with
confidence 0.3 and then 0.5 is stored as `{avg_confidence 0.4, count 2}`,
and a third observation 0.9 yields `{avg_confidence 0.65, count 3}`. -/
theorem confidence_decay_c1_witness :
    alistLookup (learn_from_correction (learn_from_correction
        (initIntegration (JsonValue.jobj []) (JsonValue.jobj [])) ("t1") ("") ("")
        [(("党主"), 3/10)]) ("t2") ("") ("") [(("党主"), 1/2)]).confidence_patterns
        (pyStrip ("党主")) =
      some { avg_confidence := 2/5, count := 2, first_seen := ("t1") } ∧
    alistLookup (learn_from_correction (learn_from_correction (learn_from_correction
        (initIntegration (JsonValue.jobj []) (JsonValue.jobj [])) ("t1") ("") ("")
        [(("党主"), 3/10)]) ("t2") ("") ("") [(("党主"), 1/2)]) ("t3") ("") ("")
        [(("党主"), 9/10)]).confidence_patterns (pyStrip ("党主")) =
      some { avg_confidence := 13/20, count := 3, first_seen := ("t1") } := by
  have h := confidence_decay_c1 (initIntegration (JsonValue.jobj []) (JsonValue.jobj []))
    ("党主") (3/10) (1/2) (9/10) ("t1") ("t2") ("t3") rfl
  refine ⟨?_, ?_⟩
  · rw [h.1]
    norm_num
  · rw [h.2.1]
    norm_num

/-- C2 (amended): `learn_from_correction` persists both mappings and adds to
the learned-pattern counter exactly when `learning_count > 0`, i.e. when at
least one **new** correction pair or **new** confidence token was added; a
call whose confidence tokens are all already known (and which adds no
correction) updates the in-memory decayed averages but leaves both files and
the counter untouched. -/
theorem persist_on_new_entries_c2 (st : IntegrationState) (now o c : String)
    (lw : List (String × ℚ)) :
    (0 < (learnCorrectionsStep st.learned_corrections ((pySplit o).zip (pySplit c))).2 +
        (learnConfidenceStep now st.confidence_patterns lw).2 →
      (learn_from_correction st now o c lw).learned_corrections_file =
        encodeCorrections (learn_from_correction st now o c lw).learned_corrections ∧
      (learn_from_correction st now o c lw).confidence_patterns_file =
        encodeConfidencePatterns (learn_from_correction st now o c lw).confidence_patterns ∧
      (learn_from_correction st now o c lw).processing_stats.learned_patterns =
        st.processing_stats.learned_patterns +
          ((learnCorrectionsStep st.learned_corrections ((pySplit o).zip (pySplit c))).2 +
            (learnConfidenceStep now st.confidence_patterns lw).2)) ∧
    ((learnCorrectionsStep st.learned_corrections ((pySplit o).zip (pySplit c))).2 +
        (learnConfidenceStep now st.confidence_patterns lw).2 = 0 →
      (learn_from_correction st now o c lw).learned_corrections_file =
        st.learned_corrections_file ∧
      (learn_from_correction st now o c lw).confidence_patterns_file =
        st.confidence_patterns_file ∧
      (learn_from_correction st now o c lw).processing_stats = st.processing_stats) ∧
    ((∀ wc ∈ lw, (alistLookup st.confidence_patterns (pyStrip wc.1)).isSome = true) →
      (learnConfidenceStep now st.confidence_patterns lw).2 = 0) := by
  refine ⟨?_, ?_, ?_⟩
  · intro hpos
    simp only [learn_from_correction]
    rw [if_pos hpos]
    exact ⟨rfl, rfl, rfl⟩
  · intro hzero
    simp only [learn_from_correction]
    rw [if_neg (by omega)]
    exact ⟨rfl, rfl, rfl⟩
  · exact learnConfidenceStep_count_zero lw st.confidence_patterns now

/-- C2 witness: learning one fresh confidence token persists the confidence
file. -/
theorem persist_on_new_entries_c2_witness :
    (learn_from_correction (initIntegration (JsonValue.jobj []) (JsonValue.jobj []))
        ("t1") ("") ("") [(("w"), 1/2)]).confidence_patterns_file =
      encodeConfidencePatterns (learn_from_correction (initIntegration (JsonValue.jobj [])
        (JsonValue.jobj [])) ("t1") ("") ("") [(("w"), 1/2)]).confidence_patterns :=
  ((persist_on_new_entries_c2 (initIntegration (JsonValue.jobj []) (JsonValue.jobj []))
    ("t1") ("") ("") [(("w"), 1/2)]).1 (by decide)).2.1

/-- C2 counterexample: a call whose only effect is updating the
already-known token `"w"` does update the in-memory pattern (to
`{avg_confidence 0.4, count 2}`) but does not persist the confidence
mapping — the file still holds the old pattern and differs from the encoded
in-memory mapping — and does not increment the learned-pattern counter,
refuting the claim that an update alone triggers persistence. -/
theorem persist_on_change_c2_counterexample :
    alistLookup (learn_from_correction (learn_from_correction
        (initIntegration (JsonValue.jobj []) (JsonValue.jobj [])) ("t0") ("") ("")
        [(("w"), 1/2)]) ("t1") ("") ("") [(("w"), 3/10)]).confidence_patterns
        (pyStrip ("w")) =
      some { avg_confidence := 2/5, count := 2, first_seen := ("t0") } ∧
    (learn_from_correction (learn_from_correction (initIntegration (JsonValue.jobj [])
        (JsonValue.jobj [])) ("t0") ("") ("") [(("w"), 1/2)]) ("t1") ("") ("")
        [(("w"), 3/10)]).confidence_patterns_file ≠
      encodeConfidencePatterns (learn_from_correction (learn_from_correction
        (initIntegration (JsonValue.jobj []) (JsonValue.jobj [])) ("t0") ("") ("")
        [(("w"), 1/2)]) ("t1") ("") ("") [(("w"), 3/10)]).confidence_patterns ∧
    (learn_from_correction (learn_from_correction (initIntegration (JsonValue.jobj [])
        (JsonValue.jobj [])) ("t0") ("") ("") [(("w"), 1/2)]) ("t1") ("") ("")
        [(("w"), 3/10)]).processing_stats.learned_patterns =
      (learn_from_correction (initIntegration (JsonValue.jobj []) (JsonValue.jobj []))
        ("t0") ("") ("") [(("w"), 1/2)]).processing_stats.learned_patterns := by
  have e0 := learn_from_correction_insert_one
    (initIntegration (JsonValue.jobj []) (JsonValue.jobj [])) ("t0") ("w") (1/2) rfl
  have hl : alistLookup (learn_from_correction (initIntegration (JsonValue.jobj [])
      (JsonValue.jobj [])) ("t0") ("") ("") [(("w"), 1/2)]).confidence_patterns
      (pyStrip ("w")) =
      some { avg_confidence := 1/2, count := 1, first_seen := ("t0") } := by
    rw [e0]
    simp [alistLookup]
  have e1 := learn_from_correction_update_one _ ("t1") ("w") (3/10) _ hl
  refine ⟨?_, ?_, ?_⟩
  · rw [e1]
    show alistLookup (alistUpdateConf _ _ _) _ = _
    rw [alistLookup_updateConf, hl]
    simp only [Option.map_some, if_pos rfl, confDecay]
    norm_num
  · rw [e1]
    show (learn_from_correction (initIntegration (JsonValue.jobj []) (JsonValue.jobj []))
        ("t0") ("") ("") [(("w"), 1/2)]).confidence_patterns_file ≠
      encodeConfidencePatterns (alistUpdateConf (learn_from_correction
        (initIntegration (JsonValue.jobj []) (JsonValue.jobj [])) ("t0") ("") ("")
        [(("w"), 1/2)]).confidence_patterns (pyStrip ("w")) (3/10))
    rw [e0]
    have hinit : (initIntegration (JsonValue.jobj []) (JsonValue.jobj [])).confidence_patterns =
        ([] : List (String × ConfidencePattern)) := rfl
    rw [hinit]
    intro hco
    have hdec := congrArg (fun j => (load_confidence_patterns j).map (fun p => p.2.count)) hco
    simp [load_confidence_patterns, decodeConfidencePatterns_encode,
      alistUpdateConf, confDecay] at hdec
  · rw [e1]

/-- C3: the pipeline passes the **full** word-level data — not the
low-confidence token list — to `learn_from_correction`, so a token observed
with confidence 0.9 (well above the 0.5 threshold) is nevertheless inserted
into the confidence-pattern store.  This contradicts the claim (and the
parameter's own name `low_confidence_words`). -/
theorem full_word_data_learned_c3 :
    alistLookup ((transcribe_resolve (initIntegration (JsonValue.jobj []) (JsonValue.jobj []))
        ("t1") ("x") [(("high"), 9/10)] (some ("x")) 1).1.confidence_patterns) ("high") =
      some { avg_confidence := 9/10, count := 1, first_seen := ("t1") } ∧
    ¬((9/10 : ℚ) < 1/2) := by
  constructor
  · rfl
  · norm_num

/-- C6: graceful rewrite degradation.  When the Claude rewrite call yields
no result after exhausting its retries, the final corrected text is exactly
the cleaned, pattern-corrected text, no learned-correction or
confidence-pattern entry changes, and the run is still a success with the
rewrite marked as not applied. -/
theorem rewrite_degradation_c6 (st : IntegrationState) (now original : String)
    (wld : List (String × ℚ)) (outcomes : ℕ → ClaudeApiOutcome) (elapsed : ℚ)
    (h : call_claude_api outcomes 3 = none) :
    (transcribe_resolve st now original wld (call_claude_api outcomes 3)
        elapsed).2.corrected_transcript =
      apply_whisper_patterns st (clean_text_basic original) ∧
    (transcribe_resolve st now original wld (call_claude_api outcomes 3)
        elapsed).1.learned_corrections = st.learned_corrections ∧
    (transcribe_resolve st now original wld (call_claude_api outcomes 3)
        elapsed).1.confidence_patterns = st.confidence_patterns ∧
    (transcribe_resolve st now original wld (call_claude_api outcomes 3)
        elapsed).2.success = true ∧
    (transcribe_resolve st now original wld (call_claude_api outcomes 3)
        elapsed).2.claude_applied = false := by
  rw [h]
  exact ⟨rfl, rfl, rfl, rfl, rfl⟩

/-- C6 witness: three consecutive HTTP 500 responses exhaust the retries and
the pipeline degrades to the pattern-corrected text. -/
theorem rewrite_degradation_c6_witness :
    (transcribe_resolve (initIntegration (JsonValue.jobj []) (JsonValue.jobj [])) ("t")
        ("a") [] (call_claude_api (fun _ => ClaudeApiOutcome.httpError 500) 3)
        1).2.corrected_transcript =
      apply_whisper_patterns (initIntegration (JsonValue.jobj []) (JsonValue.jobj []))
        (clean_text_basic ("a")) ∧
    (transcribe_resolve (initIntegration (JsonValue.jobj []) (JsonValue.jobj [])) ("t")
        ("a") [] (call_claude_api (fun _ => ClaudeApiOutcome.httpError 500) 3)
        1).1.learned_corrections =
      (initIntegration (JsonValue.jobj []) (JsonValue.jobj [])).learned_corrections ∧
    (transcribe_resolve (initIntegration (JsonValue.jobj []) (JsonValue.jobj [])) ("t")
        ("a") [] (call_claude_api (fun _ => ClaudeApiOutcome.httpError 500) 3)
        1).1.confidence_patterns =
      (initIntegration (JsonValue.jobj []) (JsonValue.jobj [])).confidence_patterns ∧
    (transcribe_resolve (initIntegration (JsonValue.jobj []) (JsonValue.jobj [])) ("t")
        ("a") [] (call_claude_api (fun _ => ClaudeApiOutcome.httpError 500) 3)
        1).2.success = true ∧
    (transcribe_resolve (initIntegration (JsonValue.jobj []) (JsonValue.jobj [])) ("t")
        ("a") [] (call_claude_api (fun _ => ClaudeApiOutcome.httpError 500) 3)
        1).2.claude_applied = false :=
  rewrite_degradation_c6 (initIntegration (JsonValue.jobj []) (JsonValue.jobj [])) ("t")
    ("a") [] (fun _ => ClaudeApiOutcome.httpError 500) 1 rfl

/-- C4 (amended): search bound.  For every database, similarity assignment
and `k ≥ 0`, `search_similar` returns exactly `min k storeSize` results;
the similarity values are always non-increasing across the result; an empty
store or `k = 0` yields the empty sequence.  (For `k < 0`, Python's
`similarities[:top_k]` drops the last `|k|` elements instead of returning
the empty sequence — see the counterexample.) -/
theorem search_bound_c4 {α : Type} (database : List α) (sim : α → ℚ) (k : ℤ) :
    (0 ≤ k → (search_similar database sim k).length = min k.toNat database.length) ∧
    List.Chain' (fun a b : α × ℚ => b.2 ≤ a.2) (search_similar database sim k) ∧
    (database = [] → search_similar database sim k = []) ∧
    (k = 0 → search_similar database sim k = []) := by
  cases database with
  | nil =>
    refine ⟨?_, ?_, ?_, ?_⟩ <;> simp [search_similar]
  | cons d ds =>
    have hne : (d :: ds).isEmpty = false := rfl
    refine ⟨?_, ?_, ?_, ?_⟩
    · intro hk
      simp only [search_similar, hne, Bool.false_eq_true, if_false, pySliceTo, if_pos hk]
      rw [List.length_take, length_sortBySimDesc, List.length_map]
    · simp only [search_similar, hne, Bool.false_eq_true, if_false, pySliceTo]
      split <;> exact (chain'_sortBySimDesc _).take _
    · intro h
      simp at h
    · intro h
      subst h
      simp only [search_similar, hne, Bool.false_eq_true, if_false, pySliceTo]
      rfl

/-- C4 witness: a two-entry store with `k = 5` returns
`min 5 2 = 2` results. -/
theorem search_bound_c4_witness :
    (search_similar [0, 1] (fun _ => (0 : ℚ)) 5).length =
      min (5 : ℤ).toNat ([0, 1] : List ℕ).length :=
  (search_bound_c4 [0, 1] (fun _ => (0 : ℚ)) 5).1 (by decide)

/-- C4 counterexample: with `k = -1` and a two-entry store, Python slicing
returns one element, so the claimed `k ≤ 0 → empty result` (and
`length = min k storeSize`) fails. -/
theorem search_bound_c4_counterexample :
    (-1 : ℤ) ≤ 0 ∧ search_similar [0, 1] (fun _ => (0 : ℚ)) (-1) ≠ [] := by
  constructor
  · decide
  · show pySliceTo (-1) (sortBySimDesc ([0, 1].map (fun e => (e, (0 : ℚ))))) ≠ []
    intro h
    have hlen := congrArg List.length h
    rw [pySliceTo] at hlen
    simp only [if_neg (by decide : ¬ (0 : ℤ) ≤ (-1 : ℤ)), List.length_take,
      length_sortBySimDesc, List.length_map] at hlen
    simp at hlen

/-- C5: positional diff learning.  `learn_from_correction`'s correction pass
is exactly the fold over the positionally zipped whitespace tokens (which
stops at the shorter sequence); a key already present is never overwritten;
and a key absent beforehand ends up mapped to the corrected token of the
**first** zipped pair whose raw token equals the key, whose tokens differ
and whose tokens both exceed two characters — or stays absent if there is
no such pair. -/
theorem positional_diff_learning_c5 (st : IntegrationState) (now raw corr w : String)
    (lw : List (String × ℚ)) :
    (learn_from_correction st now raw corr lw).learned_corrections =
      (learnCorrectionsStep st.learned_corrections
        ((pySplit raw).zip (pySplit corr))).1 ∧
    (∀ v, alistLookup st.learned_corrections w = some v →
      alistLookup (learn_from_correction st now raw corr lw).learned_corrections w =
        some v) ∧
    (alistLookup st.learned_corrections w = none →
      alistLookup (learn_from_correction st now raw corr lw).learned_corrections w =
        Option.map Prod.snd (((pySplit raw).zip (pySplit corr)).find?
          (fun p => decide (p.1 = w ∧ p.1 ≠ p.2 ∧ 2 < p.1.length ∧ 2 < p.2.length)))) ∧
    ((pySplit raw).zip (pySplit corr) =
      ((pySplit raw).take (min (pySplit raw).length (pySplit corr).length)).zip
        ((pySplit corr).take (min (pySplit raw).length (pySplit corr).length))) := by
  have hfield : (learn_from_correction st now raw corr lw).learned_corrections =
      (learnCorrectionsStep st.learned_corrections
        ((pySplit raw).zip (pySplit corr))).1 := by
    simp only [learn_from_correction]
    split <;> rfl
  refine ⟨hfield, ?_, ?_, zip_take_min _ _⟩
  · intro v h
    rw [hfield]
    exact learnCorrectionsStep_lookup_some _ _ _ _ h
  · intro h
    rw [hfield]
    exact learnCorrectionsStep_lookup_none _ _ _ h

/-- C5 witness: from raw `"aaa bbbb"` against corrected `"aaa cccc"` the
pipeline learns exactly the substitution `"bbbb" → "cccc"`. -/
theorem positional_diff_learning_c5_witness :
    alistLookup (learn_from_correction (initIntegration (JsonValue.jobj [])
        (JsonValue.jobj [])) ("t1") ("aaa bbbb") ("aaa cccc") []).learned_corrections
      ("bbbb") = some ("cccc") := by
  have h := (positional_diff_learning_c5 (initIntegration (JsonValue.jobj [])
    (JsonValue.jobj [])) ("t1") ("aaa bbbb") ("aaa cccc") ("bbbb") []).2.2.1 rfl
  rw [h]
  decide

/-- C8: persistence round-trip.  Saving the learned-corrections dict and
reading the resulting file back yields the identical dict (same keys, same
values, same insertion order), and likewise for the confidence-pattern
dict. -/
theorem persistence_roundtrip_c8 (st : IntegrationState) :
    load_learned_corrections (save_learned_corrections st).learned_corrections_file =
      st.learned_corrections ∧
    load_confidence_patterns (save_confidence_patterns st).confidence_patterns_file =
      st.confidence_patterns := by
  constructor
  · show load_learned_corrections (encodeCorrections st.learned_corrections) = _
    simp [load_learned_corrections, decodeCorrections_encode]
  · show load_confidence_patterns (encodeConfidencePatterns st.confidence_patterns) = _
    simp [load_confidence_patterns, decodeConfidencePatterns_encode]

/-- C9: allowed index/artifact inconsistency.  When the transcript-file
write fails (`save_transcript_to_file` returns `None`), the record has
already been appended to the database and persisted, it stays there, its
optional `saved_file_path` field is simply absent, and `add_to_database`
returns normally. -/
theorem index_artifact_c9 (st : RagState) (embed : String → List ℚ)
    (now ty sp ti o corr cat : String) (pinfo : TranscribeResult) :
    add_to_database st embed now ty sp ti o corr cat pinfo none =
      { database := st.database ++
          [mkDbEntry st.database.length embed now ty sp ti o corr cat pinfo]
        database_file := st.database ++
          [mkDbEntry st.database.length embed now ty sp ti o corr cat pinfo] } ∧
    (mkDbEntry st.database.length embed now ty sp ti o corr cat pinfo).saved_file_path =
      none :=
  ⟨rfl, rfl⟩

/-- C7: classifier fallback chain.  A (stripped) oracle label that is an
exact member of the enumerated category set is returned regardless of the
keyword scores; an invalid or unavailable oracle result falls back to the
keyword score winner — the first-declared category among those with the
maximal total substring-occurrence count — and when additionally every
keyword score is zero the classifier returns `"その他"`. -/
theorem classifier_fallback_c7 (st : IntegrationState) (oracle : Option String)
    (text : String) :
    (∀ lbl, oracle = some lbl →
      (alistLookup category_folders (pyStrip lbl)).isSome = true →
      (classify_text st oracle text).2 = pyStrip lbl) ∧
    (oracleInvalid oracle →
      (classify_text st oracle text).2 = fallbackCategoryOf (categoryScores text)) ∧
    (oracleInvalid oracle → (∀ p ∈ categoryScores text, p.2 = 0) →
      (classify_text st oracle text).2 = ("その他")) ∧
    (oracleInvalid oracle → (∃ p ∈ categoryScores text, 0 < p.2) →
      ∃ i, ∃ hi : i < (categoryScores text).length,
        (classify_text st oracle text).2 = ((categoryScores text).get ⟨i, hi⟩).1 ∧
        (∀ j, ∀ hj : j < (categoryScores text).length,
          ((categoryScores text).get ⟨j, hj⟩).2 ≤
            ((categoryScores text).get ⟨i, hi⟩).2) ∧
        (∀ j, ∀ hj : j < (categoryScores text).length, j < i →
          ((categoryScores text).get ⟨j, hj⟩).2 <
            ((categoryScores text).get ⟨i, hi⟩).2)) := by
  have hfb : ∀ _h : oracleInvalid oracle,
      (classify_text st oracle text).2 = fallbackCategoryOf (categoryScores text) := by
    intro h
    rcases h with h | ⟨raw, ho, hv⟩
    · subst h
      simp only [classify_text]
    · subst ho
      simp only [classify_text]
      rw [if_neg (by simp [hv])]
  refine ⟨?_, hfb, ?_, ?_⟩
  · intro lbl ho hv
    subst ho
    simp only [classify_text]
    rw [if_pos hv]
  · intro h hz
    rw [hfb h]
    cases hsc : categoryScores text with
    | nil => rfl
    | cons p rest =>
      have hz' : ∀ q ∈ p :: rest, q.2 = 0 := by
        rw [← hsc]
        exact hz
      have hnotany : ¬ ((p :: rest).any (fun q => 0 < q.2) = true) := by
        intro hany
        rcases List.any_eq_true.mp hany with ⟨q, hq, h0⟩
        have := hz' q hq
        simp at h0
        omega
      simp only [fallbackCategoryOf]
      rw [if_neg hnotany]
  · intro h hex
    rw [hfb h]
    exact fallbackCategoryOf_spec _ hex

/-- C7 witness: the valid oracle label `"ゲーム"` is returned as-is, and for
oracle-less classification of keyword-free text the classifier returns
`"その他"`. -/
theorem classifier_fallback_c7_witness :
    (classify_text (initIntegration (JsonValue.jobj []) (JsonValue.jobj []))
        (some ("ゲーム")) ("x")).2 = pyStrip ("ゲーム") ∧
    (classify_text (initIntegration (JsonValue.jobj []) (JsonValue.jobj []))
        none ("xyz")).2 = ("その他") := by
  constructor
  · exact (classifier_fallback_c7 (initIntegration (JsonValue.jobj []) (JsonValue.jobj []))
      (some ("ゲーム")) ("x")).1 ("ゲーム") rfl (by decide)
  · exact (classifier_fallback_c7 (initIntegration (JsonValue.jobj []) (JsonValue.jobj []))
      none ("xyz")).2.2.1 (Or.inl rfl) (by decide)

/-- C10: the `total_files` counter is initialised to zero and never modified
by any of the operations that touch the processing statistics, so it is zero
in every reachable state of the integration object — even though the stats
report displays it as the number of processed files. -/
theorem total_files_invariant_c10 (s : IntegrationState) (h : ReachableIntegration s) :
    s.processing_stats.total_files = 0 := by
  induction h with
  | init f1 f2 => rfl
  | learn s now o c lw h ih =>
    rw [learn_from_correction_total_files]
    exact ih
  | transcribe s now o wld oracle elapsed h ih =>
    cases oracle with
    | some cc =>
      show (learn_from_correction s now o cc wld).processing_stats.total_files = 0
      rw [learn_from_correction_total_files]
      exact ih
    | none => exact ih
  | classify s oracle text h ih =>
    cases oracle with
    | some raw =>
      simp only [classify_text]
      split
      · exact ih
      · exact ih
    | none => exact ih
  | clearPatterns s h ih => exact ih

/-- C10 witness: the freshly initialised state is reachable and its
`total_files` counter is zero. -/
theorem total_files_invariant_c10_witness :
    (initIntegration (JsonValue.jobj []) (JsonValue.jobj [])).processing_stats.total_files
      = 0 :=
  total_files_invariant_c10 (initIntegration (JsonValue.jobj []) (JsonValue.jobj []))
    (ReachableIntegration.init (JsonValue.jobj []) (JsonValue.jobj []))
